import Mathlib

/-!
Verification of the LifeTheGame cellular automaton (`src/main.cpp`).

The grid is a dense row-major buffer of 8-bit ages (`0` = dead, nonzero =
consecutive generations alive, saturating at 255).  Cell values are modelled
as `Nat` with the 8-bit range tracked by explicit `≤ 255` hypotheses;
coordinates are modelled as `Int` exactly where the C code performs `int`
arithmetic (the neighbor probes receive coordinates `-1`, `w`, `h` at the
border).
-/

namespace Life

/-- Translation of `isLive` (src/main.cpp lines 133-137): a guarded read of
the cell buffer.  The guard `x > 0 && y > 0 && x < w && y < h` admits only
coordinates strictly inside the left and top edges; any other query returns
`false` without touching the buffer. -/
def isLive (data : List Nat) (x y w h : Int) : Bool :=
  if 0 < x ∧ 0 < y ∧ x < w ∧ y < h then
    data.getD (y * w + x).toNat 0 != 0
  else
    false

/-- Translation of `neighbors` (src/main.cpp lines 139-152): the sum of the
eight Moore-neighborhood liveness probes.  The C `uint8_t` accumulator never
exceeds 8, so `Nat` addition is exact. -/
def neighbors (data : List Nat) (x y w h : Int) : Nat :=
  (isLive data (x - 1) (y - 1) w h).toNat +
  (isLive data x (y - 1) w h).toNat +
  (isLive data (x + 1) (y - 1) w h).toNat +
  (isLive data (x - 1) y w h).toNat +
  (isLive data (x + 1) y w h).toNat +
  (isLive data (x - 1) (y + 1) w h).toNat +
  (isLive data x (y + 1) w h).toNat +
  (isLive data (x + 1) (y + 1) w h).toNat

/-- One iteration of the nested loop body of `updateCells` (src/main.cpp
lines 158-172): process cell `p = (x, y)` with snapshot `data` (the local
copy `old`), writing into the live buffer `cells`.  Note that the
saturation test `cells[index] < 0xFF` reads the live buffer, exactly as the
C code does. -/
def updateCell (data : List Nat) (w h : Nat) (cells : List Nat) (p : Nat × Nat) : List Nat :=
  let index : Nat := p.2 * w + p.1
  let count : Nat := neighbors data (p.1 : Int) (p.2 : Int) (w : Int) (h : Int)
  if data.getD index 0 ≠ 0 then
    if count < 2 ∨ 3 < count then
      cells.set index 0
    else if cells.getD index 0 < 255 then
      cells.set index (cells.getD index 0 + 1)
    else
      cells
  else
    if count = 3 then cells.set index 1 else cells

/-- Row-major traversal order of the nested `for` loops of `updateCells`:
`y` from `0` to `h-1`, and for each `y`, `x` from `0` to `w-1`. -/
def positions (w h : Nat) : List (Nat × Nat) :=
  (List.range h).flatMap (fun y => (List.range w).map (fun x => (x, y)))

/-- Translation of `updateCells` (src/main.cpp lines 154-174): copy the grid
into the snapshot `old`, then rewrite every cell in row-major order reading
neighbor data from the snapshot. -/
def updateCells (cells : List Nat) (w h : Nat) : List Nat :=
  (positions w h).foldl (updateCell cells w h) cells

/-- The buffer index of a position, `index = y * w + x`. -/
def cellIndex (w : Nat) (p : Nat × Nat) : Nat := p.2 * w + p.1

/-- The per-cell transition value `updateCells` computes for cell `(x, y)`,
read entirely off the pre-update snapshot `data`. -/
def newVal (data : List Nat) (w h : Nat) (p : Nat × Nat) : Nat :=
  let index : Nat := p.2 * w + p.1
  let a := data.getD index 0
  let count := neighbors data (p.1 : Int) (p.2 : Int) (w : Int) (h : Int)
  if a ≠ 0 then
    if count < 2 ∨ 3 < count then 0
    else if a < 255 then a + 1 else a
  else
    if count = 3 then 1 else a

theorem length_updateCell (data : List Nat) (w h : Nat) (cells : List Nat) (p : Nat × Nat) :
    (updateCell data w h cells p).length = cells.length := by
  simp only [updateCell]
  repeat' split
  all_goals simp

theorem updateCell_getD_ne (data : List Nat) (w h : Nat) (cells : List Nat) (p : Nat × Nat)
    (j : Nat) (hj : j ≠ cellIndex w p) :
    (updateCell data w h cells p).getD j 0 = cells.getD j 0 := by
  have hj' : p.2 * w + p.1 ≠ j := Ne.symm hj
  simp only [updateCell]
  repeat' split
  all_goals simp [List.getD_eq_getElem?_getD, List.getElem?_set_ne hj']

theorem updateCell_getD_self (data : List Nat) (w h : Nat) (cells : List Nat) (p : Nat × Nat)
    (hlt : cellIndex w p < cells.length)
    (hagree : cells.getD (cellIndex w p) 0 = data.getD (cellIndex w p) 0) :
    (updateCell data w h cells p).getD (cellIndex w p) 0 = newVal data w h p := by
  simp only [cellIndex] at hlt hagree ⊢
  simp only [updateCell, newVal]
  rw [← hagree]
  repeat' split
  all_goals simp_all [List.getD_eq_getElem?_getD, List.getElem?_set_self hlt]

theorem foldl_updateCell_length (data : List Nat) (w h : Nat) :
    ∀ (ps : List (Nat × Nat)) (cells : List Nat),
      (ps.foldl (updateCell data w h) cells).length = cells.length
  | [], _ => rfl
  | p :: ps, cells => by
      rw [List.foldl_cons, foldl_updateCell_length data w h ps, length_updateCell]

theorem foldl_updateCell_getD_ne (data : List Nat) (w h : Nat) :
    ∀ (ps : List (Nat × Nat)) (cells : List Nat) (j : Nat),
      (∀ p ∈ ps, cellIndex w p ≠ j) →
      (ps.foldl (updateCell data w h) cells).getD j 0 = cells.getD j 0
  | [], _, _, _ => rfl
  | p :: ps, cells, j, hne => by
      rw [List.foldl_cons,
        foldl_updateCell_getD_ne data w h ps _ j (fun q hq => hne q (List.mem_cons_of_mem p hq)),
        updateCell_getD_ne data w h cells p j (Ne.symm (hne p (List.mem_cons_self p ps)))]

theorem foldl_updateCell_getD (data : List Nat) (w h : Nat) :
    ∀ (ps : List (Nat × Nat)) (cells : List Nat),
      (ps.map (cellIndex w)).Nodup →
      (∀ p ∈ ps, cellIndex w p < cells.length) →
      (∀ p ∈ ps, cells.getD (cellIndex w p) 0 = data.getD (cellIndex w p) 0) →
      ∀ p ∈ ps, (ps.foldl (updateCell data w h) cells).getD (cellIndex w p) 0 = newVal data w h p
  | [], _, _, _, _, _, hp => absurd hp (List.not_mem_nil _)
  | q :: ps, cells, hnd, hlt, hagree, p, hp => by
      rw [List.map_cons, List.nodup_cons] at hnd
      rw [List.foldl_cons]
      rcases List.mem_cons.mp hp with rfl | hp'
      · have hidx : ∀ r ∈ ps, cellIndex w r ≠ cellIndex w p := by
          intro r hr heq
          exact hnd.1 (heq ▸ List.mem_map_of_mem (cellIndex w) hr)
        rw [foldl_updateCell_getD_ne data w h ps _ _ hidx]
        exact updateCell_getD_self data w h cells p (hlt p hp) (hagree p hp)
      · refine foldl_updateCell_getD data w h ps (updateCell data w h cells q) hnd.2
          (fun r hr => ?_) (fun r hr => ?_) p hp'
        · rw [length_updateCell]; exact hlt r (List.mem_cons_of_mem q hr)
        · have hrq : cellIndex w r ≠ cellIndex w q := by
            intro heq
            exact hnd.1 (heq ▸ List.mem_map_of_mem (cellIndex w) hr)
          rw [updateCell_getD_ne data w h cells q _ hrq]
          exact hagree r (List.mem_cons_of_mem q hr)

theorem mem_positions (w h x y : Nat) : (x, y) ∈ positions w h ↔ x < w ∧ y < h := by
  simp only [positions, List.mem_flatMap, List.mem_map, List.mem_range, Prod.mk.injEq]
  constructor
  · rintro ⟨b, hb, a, ha, rfl, rfl⟩
    exact ⟨ha, hb⟩
  · rintro ⟨hx, hy⟩
    exact ⟨y, hy, x, hx, rfl, rfl⟩

theorem cellIndex_lt (w h x y : Nat) (hx : x < w) (hy : y < h) : y * w + x < w * h := by
  calc y * w + x < y * w + w := by omega
    _ = (y + 1) * w := by ring
    _ ≤ h * w := Nat.mul_le_mul_right w hy
    _ = w * h := Nat.mul_comm h w

theorem cellIndex_inj {w x₁ y₁ x₂ y₂ : Nat} (hx₁ : x₁ < w) (hx₂ : x₂ < w)
    (h : y₁ * w + x₁ = y₂ * w + x₂) : x₁ = x₂ ∧ y₁ = y₂ := by
  have hx : x₁ = x₂ := by
    have h₁ : (y₁ * w + x₁) % w = x₁ := by
      rw [Nat.mul_comm, Nat.mul_add_mod, Nat.mod_eq_of_lt hx₁]
    have h₂ : (y₂ * w + x₂) % w = x₂ := by
      rw [Nat.mul_comm, Nat.mul_add_mod, Nat.mod_eq_of_lt hx₂]
    rw [← h₁, ← h₂, h]
  refine ⟨hx, ?_⟩
  subst hx
  have hw : 0 < w := Nat.lt_of_le_of_lt (Nat.zero_le _) hx₁
  exact Nat.eq_of_mul_eq_mul_right hw (by omega)

theorem positions_map_nodup (w h : Nat) : ((positions w h).map (cellIndex w)).Nodup := by
  rw [positions, List.map_flatMap]
  refine List.nodup_flatMap.mpr ⟨?_, ?_⟩
  · intro y _
    rw [List.map_map]
    refine List.Nodup.map ?_ (List.nodup_range w)
    intro a b hab
    have hab' : y * w + a = y * w + b := by
      simpa [cellIndex, Function.comp] using hab
    omega
  · refine (List.pairwise_lt_range h).imp ?_
    intro y₁ y₂ hlt
    simp only [Function.onFun]
    intro n hn₁ hn₂
    rw [List.map_map] at hn₁ hn₂
    simp only [List.mem_map, List.mem_range, Function.comp] at hn₁ hn₂
    obtain ⟨a, ha, rfl⟩ := hn₁
    obtain ⟨b, hb, hba⟩ := hn₂
    have := cellIndex_inj hb ha (by simpa [cellIndex] using hba)
    omega

theorem updateCells_length (cells : List Nat) (w h : Nat) :
    (updateCells cells w h).length = cells.length :=
  foldl_updateCell_length cells w h (positions w h) cells

theorem updateCells_getD (cells : List Nat) (w h : Nat) (hlen : cells.length = w * h)
    (x y : Nat) (hx : x < w) (hy : y < h) :
    (updateCells cells w h).getD (y * w + x) 0 = newVal cells w h (x, y) := by
  have hmem : (x, y) ∈ positions w h := (mem_positions w h x y).mpr ⟨hx, hy⟩
  exact foldl_updateCell_getD cells w h (positions w h) cells (positions_map_nodup w h)
    (fun p hp => by
      obtain ⟨hpx, hpy⟩ := (mem_positions w h p.1 p.2).mp hp
      simpa [cellIndex, hlen] using cellIndex_lt w h p.1 p.2 hpx hpy)
    (fun _ _ => rfl) (x, y) hmem

theorem updateCells_getD_untouched (cells : List Nat) (w h : Nat) (j : Nat)
    (hj : w * h ≤ j) :
    (updateCells cells w h).getD j 0 = cells.getD j 0 := by
  refine foldl_updateCell_getD_ne cells w h (positions w h) cells j ?_
  intro p hp
  obtain ⟨hpx, hpy⟩ := (mem_positions w h p.1 p.2).mp hp
  have := cellIndex_lt w h p.1 p.2 hpx hpy
  simp only [cellIndex]
  omega

theorem updateCell_bounded (data : List Nat) (w h : Nat) (cells : List Nat) (p : Nat × Nat)
    (hb : ∀ v ∈ cells, v ≤ 255) :
    ∀ v ∈ updateCell data w h cells p, v ≤ 255 := by
  intro v hv
  simp only [updateCell] at hv
  have hset : ∀ (i a : Nat), a ≤ 255 → v ∈ cells.set i a → v ≤ 255 := by
    intro i a ha hmem
    rcases List.mem_or_eq_of_mem_set hmem with hv' | rfl
    · exact hb v hv'
    · exact ha
  split at hv
  · split at hv
    · exact hset _ _ (by omega) hv
    · split at hv
      · refine hset _ _ ?_ hv
        omega
      · exact hb v hv
  · split at hv
    · exact hset _ _ (by omega) hv
    · exact hb v hv

theorem foldl_updateCell_bounded (data : List Nat) (w h : Nat) :
    ∀ (ps : List (Nat × Nat)) (cells : List Nat),
      (∀ v ∈ cells, v ≤ 255) →
      ∀ v ∈ ps.foldl (updateCell data w h) cells, v ≤ 255
  | [], _, hb => hb
  | p :: ps, cells, hb => by
      rw [List.foldl_cons]
      exact foldl_updateCell_bounded data w h ps _ (updateCell_bounded data w h cells p hb)

theorem updateCells_bounded (cells : List Nat) (w h : Nat) (hb : ∀ v ∈ cells, v ≤ 255) :
    ∀ v ∈ updateCells cells w h, v ≤ 255 :=
  foldl_updateCell_bounded cells w h (positions w h) cells hb

theorem getD_le_255 (cells : List Nat) (j : Nat) (hb : ∀ v ∈ cells, v ≤ 255) :
    cells.getD j 0 ≤ 255 := by
  by_cases hj : j < cells.length
  · rw [List.getD_eq_getElem cells 0 hj]
    exact hb _ (List.getElem_mem hj)
  · rw [List.getD_eq_default cells 0 (by omega)]
    omega

/-- Initial 5×5 test grid: all dead except a 2×2 block of age-1 cells at
rows and columns 2-3 (0-indexed). -/
def block1 : List Nat :=
  [0, 0, 0, 0, 0,
   0, 0, 0, 0, 0,
   0, 0, 1, 1, 0,
   0, 0, 1, 1, 0,
   0, 0, 0, 0, 0]

/-- C1: one call to `updateCells` applies exactly the stated rule to every
cell, with neighbor counts taken from the pre-update snapshot: an alive
cell (nonzero age) with neighbor count `< 2` or `> 3` becomes `0`; an alive
cell with count `2` or `3` stays alive with its age incremented by `1`
unless the age is already `255`, in which case it stays `255`; a dead cell
(age `0`) with exactly `3` live neighbors becomes alive with age `1`; every
other cell is unchanged. -/
theorem updateCells_applies_life_rule (cells : List Nat) (w h : Nat)
    (hlen : cells.length = w * h) (hbound : ∀ v ∈ cells, v ≤ 255)
    (x y : Nat) (hx : x < w) (hy : y < h) :
    (updateCells cells w h).getD (y * w + x) 0 =
      if cells.getD (y * w + x) 0 ≠ 0 then
        if neighbors cells x y w h < 2 ∨ 3 < neighbors cells x y w h then 0
        else if cells.getD (y * w + x) 0 = 255 then 255
        else cells.getD (y * w + x) 0 + 1
      else
        if neighbors cells x y w h = 3 then 1
        else cells.getD (y * w + x) 0 := by
  rw [updateCells_getD cells w h hlen x y hx hy]
  have ha := getD_le_255 cells (y * w + x) hbound
  simp only [newVal]
  split_ifs <;> omega

/-- Witness for `updateCells_applies_life_rule`: the center cell `(2, 2)` of
the 2×2 block grid. -/
theorem updateCells_applies_life_rule_witness :
    (updateCells block1 5 5).getD (2 * 5 + 2) 0 =
      if block1.getD (2 * 5 + 2) 0 ≠ 0 then
        if neighbors block1 2 2 5 5 < 2 ∨ 3 < neighbors block1 2 2 5 5 then 0
        else if block1.getD (2 * 5 + 2) 0 = 255 then 255
        else block1.getD (2 * 5 + 2) 0 + 1
      else
        if neighbors block1 2 2 5 5 = 3 then 1
        else block1.getD (2 * 5 + 2) 0 :=
  updateCells_applies_life_rule block1 5 5 (by decide) (by decide) 2 2 (by decide) (by decide)

/-- C6: on the 5×5 grid seeded all dead except a 2×2 block of age-1 cells at
rows and columns 2-3, one call to `updateCells` yields exactly those same 4
cells alive, each with age 2, and every other cell dead. -/
theorem block_one_generation :
    updateCells block1 5 5 =
      [0, 0, 0, 0, 0,
       0, 0, 0, 0, 0,
       0, 0, 2, 2, 0,
       0, 0, 2, 2, 0,
       0, 0, 0, 0, 0] := by decide

theorem isLive_congr (d₁ d₂ : List Nat) (x y w h : Int)
    (hagree : ∀ a b : Int, 0 < a → 0 < b → a < w → b < h →
      d₁.getD (b * w + a).toNat 0 = d₂.getD (b * w + a).toNat 0) :
    isLive d₁ x y w h = isLive d₂ x y w h := by
  unfold isLive
  split
  · rename_i hg
    rw [hagree x y hg.1 hg.2.1 hg.2.2.1 hg.2.2.2]
  · rfl

/-- C2: the boundary policy is asymmetric and non-wrapping: a probe at any
coordinate with `x ≤ 0` or `y ≤ 0` is never counted as a live neighbor (so
the top row and leftmost column never contribute, and no neighbor count
depends on the cells stored there), while a cell in the rightmost column
`x = w - 1` or the bottom row `y = h - 1` is counted as a live neighbor
exactly when it is alive. -/
theorem boundary_asymmetric (w h : Nat) (_hw : 1 ≤ w) (_hh : 1 ≤ h) :
    (∀ (data : List Nat) (x y : Int), x ≤ 0 ∨ y ≤ 0 → isLive data x y w h = false) ∧
    (∀ (d₁ d₂ : List Nat) (x y : Int),
      (∀ a b : Int, 0 < a → 0 < b → a < w → b < h →
        d₁.getD (b * w + a).toNat 0 = d₂.getD (b * w + a).toNat 0) →
      neighbors d₁ x y w h = neighbors d₂ x y w h) ∧
    (∀ (data : List Nat) (y : Int), 2 ≤ w → 0 < y → y < h →
      (isLive data ((w : Int) - 1) y w h = true ↔
        data.getD (y * w + ((w : Int) - 1)).toNat 0 ≠ 0)) ∧
    (∀ (data : List Nat) (x : Int), 2 ≤ h → 0 < x → x < w →
      (isLive data x ((h : Int) - 1) w h = true ↔
        data.getD (((h : Int) - 1) * w + x).toNat 0 ≠ 0)) := by
  refine ⟨?_, ?_, ?_, ?_⟩
  · intro data x y hxy
    unfold isLive
    split
    · rename_i hg
      exfalso
      omega
    · rfl
  · intro d₁ d₂ x y hagree
    unfold neighbors
    rw [isLive_congr d₁ d₂ (x - 1) (y - 1) w h hagree,
      isLive_congr d₁ d₂ x (y - 1) w h hagree,
      isLive_congr d₁ d₂ (x + 1) (y - 1) w h hagree,
      isLive_congr d₁ d₂ (x - 1) y w h hagree,
      isLive_congr d₁ d₂ (x + 1) y w h hagree,
      isLive_congr d₁ d₂ (x - 1) (y + 1) w h hagree,
      isLive_congr d₁ d₂ x (y + 1) w h hagree,
      isLive_congr d₁ d₂ (x + 1) (y + 1) w h hagree]
  · intro data y hw2 hy hyh
    unfold isLive
    rw [if_pos (show 0 < (w : Int) - 1 ∧ 0 < y ∧ (w : Int) - 1 < w ∧ y < h by omega)]
    simp
  · intro data x hh2 hx hxw
    unfold isLive
    rw [if_pos (show 0 < x ∧ 0 < (h : Int) - 1 ∧ x < (w : Int) ∧ (h : Int) - 1 < h by omega)]
    simp

/-- Witness for `boundary_asymmetric` on the 5×5 block grid: the left
column is never counted, rewriting the corner cell `(0, 0)` changes no
neighbor count, and the cells `(4, 2)` and `(2, 4)` on the rightmost column
and bottom row are counted exactly when alive. -/
theorem boundary_asymmetric_witness :
    isLive block1 0 2 5 5 = false ∧
    neighbors block1 1 1 5 5 = neighbors (block1.set 0 7) 1 1 5 5 ∧
    (isLive block1 (((5 : Nat) : Int) - 1) 2 5 5 = true ↔
      block1.getD ((2 : Int) * 5 + (((5 : Nat) : Int) - 1)).toNat 0 ≠ 0) ∧
    (isLive block1 2 (((5 : Nat) : Int) - 1) 5 5 = true ↔
      block1.getD (((((5 : Nat) : Int) - 1)) * 5 + 2).toNat 0 ≠ 0) := by
  obtain ⟨h1, h2, h3, h4⟩ := boundary_asymmetric 5 5 (by decide) (by decide)
  refine ⟨h1 block1 0 2 (Or.inl (by decide)), h2 block1 (block1.set 0 7) 1 1 ?_,
    h3 block1 2 (by decide) (by decide) (by decide),
    h4 block1 2 (by decide) (by decide) (by decide)⟩
  intro a b ha hb haw hbh
  have hidx : (b * ((5 : Nat) : Int) + a).toNat ≠ 0 := by omega
  rw [List.getD_eq_getElem?_getD, List.getD_eq_getElem?_getD,
    List.getElem?_set_ne (Ne.symm hidx)]

/-- C7: every index computed during an update stays within
`[0, width*height)`: the liveness probe answers `false` for any coordinate
failing its bounds guard (without reading the buffer), a coordinate passing
the guard yields a buffer index strictly below `w * h`, and `updateCells`
leaves every position at index `≥ w * h` untouched and never changes the
grid's length. -/
theorem update_indices_safe (cells : List Nat) (w h : Nat) :
    (updateCells cells w h).length = cells.length ∧
    (∀ j, w * h ≤ j → (updateCells cells w h).getD j 0 = cells.getD j 0) ∧
    (∀ (data : List Nat) (x y wi hi : Int),
      ¬(0 < x ∧ 0 < y ∧ x < wi ∧ y < hi) → isLive data x y wi hi = false) ∧
    (∀ (x y : Int), 0 < x → 0 < y → x < w → y < h → (y * w + x).toNat < w * h) := by
  refine ⟨updateCells_length cells w h,
    fun j hj => updateCells_getD_untouched cells w h j hj, ?_, ?_⟩
  · intro data x y wi hi hguard
    unfold isLive
    rw [if_neg hguard]
  · intro x y hx hy hxw hyh
    have hnn : (0 : Int) ≤ y * w + x := by
      have := mul_nonneg (le_of_lt hy) (Int.natCast_nonneg w)
      omega
    rw [Int.toNat_lt hnn]
    push_cast
    nlinarith [mul_le_mul_of_nonneg_right (show y + 1 ≤ (h : Int) by omega)
      (Int.natCast_nonneg w)]

/-- Witness for `update_indices_safe` on the 5×5 block grid: the length is
preserved, the out-of-range index 30 is untouched, the probe at the
excluded coordinate `(0, 2)` answers `false`, and the in-guard coordinate
`(3, 2)` maps to an index below 25. -/
theorem update_indices_safe_witness :
    (updateCells block1 5 5).length = block1.length ∧
    (updateCells block1 5 5).getD 30 0 = block1.getD 30 0 ∧
    isLive block1 0 2 ((5 : Nat) : Int) ((5 : Nat) : Int) = false ∧
    ((2 : Int) * ((5 : Nat) : Int) + 3).toNat < 5 * 5 := by
  obtain ⟨h1, h2, h3, h4⟩ := update_indices_safe block1 5 5
  exact ⟨h1, h2 30 (by decide), h3 block1 0 2 5 5 (by decide),
    h4 3 2 (by decide) (by decide) (by decide) (by decide)⟩

/-- Translation of the pixel expression in `updatePixelData` (src/main.cpp
line 180): `*p = *c ? (0x0000ff00 | *c << 24) : 0x00000000`, with the
`uint32_t` store modelled by the final reduction modulo `2 ^ 32`. -/
def encodePixel (c : Nat) : Nat :=
  if c ≠ 0 then (0x0000ff00 ||| (c <<< 24)) % 2 ^ 32 else 0

/-- Translation of `updatePixelData` (src/main.cpp lines 176-182): the two
iterators advance in lockstep until `c` reaches `cells.end()`, overwriting
one pixel per cell; pixels past index `cells.length` are left unchanged. -/
def updatePixelData (pixels cells : List Nat) : List Nat :=
  cells.map encodePixel ++ pixels.drop cells.length

set_option maxRecDepth 8192 in
theorem encodePixel_eq :
    ∀ k, k < 256 → k ≠ 0 → encodePixel k = k * 2 ^ 24 + 0x0000ff00 := by decide

/-- C3: the pixel encoder is a pure total function applied cellwise by
index: an alive cell of age `k > 0` is sent to the 32-bit value whose most
significant byte is `k` and whose lower 24 bits are the fixed constant
`0x0000ff00`; a dead cell is sent to the all-zero pixel; an all-dead grid
encodes to an all-zero buffer. -/
theorem updatePixelData_spec (pixels cells : List Nat)
    (hlen : pixels.length = cells.length) :
    (updatePixelData pixels cells).length = cells.length ∧
    (∀ i, (updatePixelData pixels cells).getD i 0 = encodePixel (cells.getD i 0)) ∧
    (∀ k, 0 < k → k ≤ 255 →
      encodePixel k / 2 ^ 24 = k ∧ encodePixel k % 2 ^ 24 = 0x0000ff00) ∧
    encodePixel 0 = 0 ∧
    ((∀ v ∈ cells, v = 0) → ∀ i, (updatePixelData pixels cells).getD i 0 = 0) := by
  have hdrop : pixels.drop cells.length = [] := by
    rw [← hlen]
    exact List.drop_length pixels
  have h0 : encodePixel 0 = 0 := rfl
  have hpoint : ∀ i, (updatePixelData pixels cells).getD i 0 = encodePixel (cells.getD i 0) := by
    intro i
    rw [updatePixelData, hdrop, List.append_nil]
    conv_lhs => rw [← h0]
    rw [List.getD_map]
  refine ⟨?_, hpoint, ?_, h0, ?_⟩
  · simp [updatePixelData, hdrop]
  · intro k hk hk255
    rw [encodePixel_eq k (by omega) (by omega)]
    have h24 : (2 : Nat) ^ 24 = 16777216 := by norm_num
    rw [h24]
    omega
  · intro hz i
    have hcell : cells.getD i 0 = 0 := by
      by_cases hi : i < cells.length
      · rw [List.getD_eq_getElem cells 0 hi]
        exact hz _ (List.getElem_mem hi)
      · rw [List.getD_eq_default cells 0 (by omega)]
    rw [hpoint i, hcell, h0]

/-- Witness for `updatePixelData_spec` on the 5×5 block grid with a zeroed
pixel buffer. -/
theorem updatePixelData_spec_witness :
    (updatePixelData (List.replicate 25 0) block1).length = block1.length ∧
    (updatePixelData (List.replicate 25 0) block1).getD 12 0 =
      encodePixel (block1.getD 12 0) ∧
    (encodePixel 9 / 2 ^ 24 = 9 ∧ encodePixel 9 % 2 ^ 24 = 0x0000ff00) ∧
    encodePixel 0 = 0 := by
  obtain ⟨h1, h2, h3, h4, _⟩ := updatePixelData_spec (List.replicate 25 0) block1 (by decide)
  exact ⟨h1, h2 12, h3 9 (by decide) (by decide), h4⟩

/-- Translation of the seeding lambda in `createCells` (src/main.cpp lines
123-128): one draw `v` of `uniform_int_distribution(0, 100)` is compared
with 15, and the resulting boolean is stored as the 8-bit cell value. -/
def seedCell (v : Nat) : Nat := if v < 15 then 1 else 0

/-- Translation of `createCells` (src/main.cpp lines 121-131): a buffer of
`width * height` cells, each filled from the next draw of the global
`mt19937`-backed distribution; the random stream is abstracted as the
function `sample` (draw number `i` seeds cell `i`). -/
def createCells (width height : Nat) (sample : Nat → Nat) : List Nat :=
  (List.range (width * height)).map (fun i => seedCell (sample i))

/-- Probability that one uniform draw from the distribution's range
`{0, ..., 100}` seeds a live cell. -/
def seedAliveProb : ℚ :=
  (((Finset.range 101).filter fun v => seedCell v = 1).card : ℚ) / 101

/-- C4 is false as stated: the seeding probability is `15/101`, not 15%.
`uniform_int_distribution(0, 100)` has 101 equally likely values, of which
exactly the 15 values `0, ..., 14` pass the `< 15` test. -/
theorem createCells_prob_not_15_percent : seedAliveProb ≠ 15 / 100 := by
  have hcard : ((Finset.range 101).filter fun v => seedCell v = 1).card = 15 := by decide
  unfold seedAliveProb
  rw [hcard]
  norm_num

/-- C4 (amended): grid initialization with `width, height > 0` produces
exactly `width * height` cells; each cell is independently seeded from one
uniform draw over `{0, ..., 100}`, becoming alive with value exactly 1 when
the draw is below 15 and dead with value 0 otherwise — an event of
probability `15/101` (about 14.85%), not exactly 15%. -/
theorem createCells_spec (width height : Nat) (sample : Nat → Nat)
    (_hw : 0 < width) (_hh : 0 < height) :
    (createCells width height sample).length = width * height ∧
    (∀ i, i < width * height →
      (createCells width height sample).getD i 0 = seedCell (sample i)) ∧
    (∀ v, seedCell v = if v < 15 then 1 else 0) ∧
    seedAliveProb = 15 / 101 := by
  have hlen : (createCells width height sample).length = width * height := by
    simp [createCells]
  refine ⟨hlen, fun i hi => ?_, fun v => rfl, ?_⟩
  · rw [List.getD_eq_getElem _ _ (by rw [hlen]; exact hi)]
    simp [createCells]
  · have hcard : ((Finset.range 101).filter fun v => seedCell v = 1).card = 15 := by decide
    unfold seedAliveProb
    rw [hcard]
    norm_num

/-- Witness for `createCells_spec` on a 2×3 grid seeded with the identity
stream. -/
theorem createCells_spec_witness :
    (createCells 2 3 (fun i => i)).length = 2 * 3 ∧
    (∀ i, i < 2 * 3 → (createCells 2 3 (fun i => i)).getD i 0 = seedCell i) ∧
    (∀ v, seedCell v = if v < 15 then 1 else 0) ∧
    seedAliveProb = 15 / 101 :=
  createCells_spec 2 3 (fun i => i) (by decide) (by decide)

/-- Iterated generations: `genN cells w h n` is the grid after the frame
loop has called `updateCells` `n` times. -/
def genN (cells : List Nat) (w h : Nat) : Nat → List Nat
  | 0 => cells
  | n + 1 => updateCells (genN cells w h n) w h

theorem genN_length (cells : List Nat) (w h : Nat) :
    ∀ n, (genN cells w h n).length = cells.length
  | 0 => rfl
  | n + 1 => by
      show (updateCells (genN cells w h n) w h).length = cells.length
      rw [updateCells_length, genN_length cells w h n]

theorem genN_bounded (cells : List Nat) (w h : Nat) (hb : ∀ v ∈ cells, v ≤ 255) :
    ∀ n, ∀ v ∈ genN cells w h n, v ≤ 255
  | 0 => hb
  | n + 1 => updateCells_bounded _ w h (genN_bounded cells w h hb n)

/-- C5: a live cell that satisfies the 2-or-3-neighbor survival condition
at every one of 260 consecutive generations ends with age exactly 255: the
age counter saturates at 255 and never wraps past 255 back to 0. -/
theorem age_saturates (cells : List Nat) (w h x y : Nat)
    (hlen : cells.length = w * h) (hbound : ∀ v ∈ cells, v ≤ 255)
    (hx : x < w) (hy : y < h)
    (halive : cells.getD (y * w + x) 0 ≠ 0)
    (hsurv : ∀ i, i < 260 →
      neighbors (genN cells w h i) x y w h = 2 ∨
      neighbors (genN cells w h i) x y w h = 3) :
    (genN cells w h 260).getD (y * w + x) 0 = 255 := by
  have key : ∀ i, i ≤ 260 →
      min (i + 1) 255 ≤ (genN cells w h i).getD (y * w + x) 0 ∧
      (genN cells w h i).getD (y * w + x) 0 ≤ 255 := by
    intro i
    induction i with
    | zero =>
        intro _
        have h0 : genN cells w h 0 = cells := rfl
        rw [h0]
        refine ⟨?_, getD_le_255 cells _ hbound⟩
        omega
    | succ n ih =>
        intro hn
        obtain ⟨hlo, hhi⟩ := ih (by omega)
        have hglen : (genN cells w h n).length = w * h := by
          rw [genN_length]
          exact hlen
        have hstep : (genN cells w h (n + 1)).getD (y * w + x) 0 =
            newVal (genN cells w h n) w h (x, y) :=
          updateCells_getD (genN cells w h n) w h hglen x y hx hy
        rw [hstep]
        simp only [newVal]
        rcases hsurv n (by omega) with hc | hc <;> split_ifs <;> omega
  obtain ⟨hlo, hhi⟩ := key 260 (Nat.le_refl _)
  omega

/-- All-dead 5×5 grid except a 2×2 block of fully saturated (age 255)
cells at rows and columns 2-3: a fixed point of `updateCells`. -/
def blockFull : List Nat :=
  [0, 0, 0, 0, 0,
   0, 0, 0, 0, 0,
   0, 0, 255, 255, 0,
   0, 0, 255, 255, 0,
   0, 0, 0, 0, 0]

theorem blockFull_fixed : updateCells blockFull 5 5 = blockFull := by decide

theorem genN_blockFull : ∀ i, genN blockFull 5 5 i = blockFull
  | 0 => rfl
  | i + 1 => by
      show updateCells (genN blockFull 5 5 i) 5 5 = blockFull
      rw [genN_blockFull i, blockFull_fixed]

/-- Witness for `age_saturates`: in the saturated 2×2 block every survival
hypothesis holds for cell `(2, 2)` over all 260 generations. -/
theorem age_saturates_witness :
    (genN blockFull 5 5 260).getD (2 * 5 + 2) 0 = 255 :=
  age_saturates blockFull 5 5 2 2 (by decide) (by decide) (by decide) (by decide)
    (by decide) (fun i _ => by rw [genN_blockFull i]; right; decide)

/-- SDL events as inspected by the `switch` in the frame loop: an explicit
quit request, a key press carrying its keycode, or anything else. -/
inductive Event where
  | quit : Event
  | keyDown (sym : Nat) : Event
  | other : Event
deriving DecidableEq

/-- Keycode of the escape key, `SDLK_ESCAPE = 27`. -/
def escapeKey : Nat := 27

/-- One step of the event `switch` (src/main.cpp lines 69-77): `SDL_QUIT`
clears `run`, `SDL_KEYDOWN` clears `run` only for the escape key, and every
other event is ignored. -/
def handleEvent (run : Bool) (e : Event) : Bool :=
  match e with
  | .keyDown sym => if sym = escapeKey then false else run
  | .quit => false
  | .other => run

/-- The inner `while (SDL_PollEvent(&event))` drain: all pending events of
one tick are folded over the `run` flag. -/
def handleEvents (run : Bool) (es : List Event) : Bool := es.foldl handleEvent run

/-- State of the frame loop: the cell grid, the pixel buffer, the trace of
buffers handed to `SDL_RenderPresent` so far, and the `run` flag. -/
structure TickState where
  cells : List Nat
  pixels : List Nat
  presented : List (List Nat)
  run : Bool

/-- One iteration of the `while (run)` body (src/main.cpp lines 61-79), in
source order: (1) encode the current grid into the pixel buffer, (2)
advance the grid one generation, (3) upload and present the pixel buffer,
(4) drain all pending input events. -/
def tick (w h : Nat) (s : TickState) (events : List Event) : TickState :=
  let pixels := updatePixelData s.pixels s.cells
  let cells := updateCells s.cells w h
  let presented := s.presented ++ [pixels]
  let run := handleEvents s.run events
  ⟨cells, pixels, presented, run⟩

/-- The frame loop: run one tick per pending event batch while `run` holds.
The supplied list gives the events drained at each tick. -/
def runLoop (w h : Nat) (s : TickState) : List (List Event) → TickState
  | [] => s
  | es :: rest => if s.run then runLoop w h (tick w h s es) rest else s

/-- Number of ticks the loop executes on the given event batches (starting
with `run = true`): it consumes batches until one of them clears `run`. -/
def executedTicks : List (List Event) → Nat
  | [] => 0
  | es :: rest => if handleEvents true es then 1 + executedTicks rest else 1

theorem runLoop_stopped (w h : Nat) (s : TickState) (hs : s.run = false) :
    ∀ batches, runLoop w h s batches = s
  | [] => rfl
  | es :: rest => by
      show (if s.run then runLoop w h (tick w h s es) rest else s) = s
      rw [hs]
      simp

theorem genN_shift (c : List Nat) (w h : Nat) :
    ∀ n, genN (updateCells c w h) w h n = genN c w h (n + 1)
  | 0 => rfl
  | n + 1 => by
      show updateCells (genN (updateCells c w h) w h n) w h =
        updateCells (genN c w h (n + 1)) w h
      rw [genN_shift c w h n]

theorem runLoop_spec (w h : Nat) :
    ∀ (batches : List (List Event)) (s : TickState),
      s.run = true → s.pixels.length = s.cells.length →
      (runLoop w h s batches).presented =
        s.presented ++ (List.range (executedTicks batches)).map
          (fun i => (genN s.cells w h i).map encodePixel) ∧
      (runLoop w h s batches).cells = genN s.cells w h (executedTicks batches)
  | [], s, _, _ => by
      constructor
      · show s.presented = s.presented ++ (List.range 0).map _
        simp
      · rfl
  | es :: rest, s, hrun, hlen => by
      have hmap : updatePixelData s.pixels s.cells = s.cells.map encodePixel := by
        rw [updatePixelData, ← hlen, List.drop_length, List.append_nil]
      have hloop : runLoop w h s (es :: rest) = runLoop w h (tick w h s es) rest := by
        show (if s.run then runLoop w h (tick w h s es) rest else s) = _
        rw [hrun]
        simp
      rw [hloop]
      cases hev : handleEvents true es with
      | true =>
          have hrun' : (tick w h s es).run = true := by
            show handleEvents s.run es = true
            rw [hrun, hev]
          have hlen' : (tick w h s es).pixels.length = (tick w h s es).cells.length := by
            show (updatePixelData s.pixels s.cells).length = (updateCells s.cells w h).length
            rw [hmap, List.length_map, updateCells_length]
          obtain ⟨hp, hc⟩ := runLoop_spec w h rest (tick w h s es) hrun' hlen'
          have hticks : executedTicks (es :: rest) = executedTicks rest + 1 := by
            show (if handleEvents true es then 1 + executedTicks rest else 1) = _
            rw [hev]
            simp [Nat.add_comm]
          constructor
          · rw [hp, hticks]
            show s.presented ++ [updatePixelData s.pixels s.cells] ++ _ = _
            rw [hmap]
            have hcells : (tick w h s es).cells = updateCells s.cells w h := rfl
            rw [hcells]
            simp only [genN_shift]
            rw [List.range_succ_eq_map, List.map_cons, List.map_map, List.append_assoc]
            rfl
          · rw [hc, hticks]
            show genN (updateCells s.cells w h) w h (executedTicks rest) = _
            rw [genN_shift]
      | false =>
          have hstop : runLoop w h (tick w h s es) rest = tick w h s es := by
            refine runLoop_stopped w h _ ?_ rest
            show handleEvents s.run es = false
            rw [hrun, hev]
          have hticks : executedTicks (es :: rest) = 1 := by
            show (if handleEvents true es then 1 + executedTicks rest else 1) = 1
            rw [hev]
            simp
          rw [hstop, hticks]
          constructor
          · show s.presented ++ [updatePixelData s.pixels s.cells] = _
            rw [hmap]
            rfl
          · rfl

/-- C9: in every iteration of the running frame loop the four steps happen
in source order — encode, advance, present, drain — so the i-th presented
buffer is always the encoding of the grid at the start of tick i, before
that tick's advance, and a tick whose events stop the loop still presents
its frame before the loop exits. -/
theorem loop_presents_pre_advance (w h : Nat) (cells₀ pixels₀ : List Nat)
    (batches : List (List Event)) (hlen : pixels₀.length = cells₀.length) :
    (runLoop w h ⟨cells₀, pixels₀, [], true⟩ batches).presented =
      (List.range (executedTicks batches)).map
        (fun i => (genN cells₀ w h i).map encodePixel) ∧
    (runLoop w h ⟨cells₀, pixels₀, [], true⟩ batches).cells =
      genN cells₀ w h (executedTicks batches) := by
  simpa using runLoop_spec w h batches ⟨cells₀, pixels₀, [], true⟩ rfl hlen

/-- Witness for `loop_presents_pre_advance`: a two-tick run on the block
grid, stopped by a quit event in the second batch. -/
theorem loop_presents_pre_advance_witness :
    (runLoop 5 5 ⟨block1, List.replicate 25 0, [], true⟩ [[], [Event.quit]]).presented =
      (List.range (executedTicks [[], [Event.quit]])).map
        (fun i => (genN block1 5 5 i).map encodePixel) ∧
    (runLoop 5 5 ⟨block1, List.replicate 25 0, [], true⟩ [[], [Event.quit]]).cells =
      genN block1 5 5 (executedTicks [[], [Event.quit]]) :=
  loop_presents_pre_advance 5 5 block1 (List.replicate 25 0) [[], [Event.quit]] (by decide)

/-- Dynamic type of a C++ exception object relevant to `main`: either a
plain `std::exception` or a `std::runtime_error`. -/
inductive ExcType where
  | base : ExcType
  | runtimeError : ExcType
deriving DecidableEq

/-- A C++ exception object: its dynamic type together with the message
stored in its `runtime_error` part. -/
structure Exc where
  ty : ExcType
  msg : String

/-- A `throw std::runtime_error(m)` site. -/
def throwRuntimeError (m : String) : Exc := ⟨.runtimeError, m⟩

/-- The handler parameter of `catch (std::exception e)` (src/main.cpp line
83): catching by value copy-constructs a plain `std::exception` from the
base subobject, slicing the `runtime_error` part away — the handler's
object has dynamic type `std::exception`. -/
def catchByValue (e : Exc) : Exc := ⟨.base, e.msg⟩

/-- Virtual dispatch of `what()` on the object's dynamic type: a
`runtime_error` reports its stored message, while a plain `std::exception`
reports the library's generic message (libstdc++ returns the fixed string
"std::exception"). -/
def what (e : Exc) : String :=
  match e.ty with
  | .base => "std::exception"
  | .runtimeError => e.msg

/-- The five guarded initialization steps of `main` (src/main.cpp lines
29-53), in order. -/
inductive InitStep where
  | sdlInit : InitStep
  | displayMode : InitStep
  | window : InitStep
  | renderer : InitStep
  | texture : InitStep
deriving DecidableEq

/-- The message of the `runtime_error` thrown when the given initialization
step fails. -/
def initMsg : InitStep → String
  | .sdlInit => "SDL initialize failed!"
  | .displayMode => "SDL can\x27t get resolution!"
  | .window => "Create window failed"
  | .renderer => "Create renderer failed"
  | .texture => "Create texture failed"

/-- Observable outcome of `main` (src/main.cpp lines 27-87): if an
initialization step fails, the thrown `runtime_error` is caught by value at
the top level, `e.what()` is written to `cerr`, and `main` returns 1;
otherwise the frame loop runs, and once a quit or escape event clears `run`
the loop exits and `main` returns 0.  The result is the pair (exit code,
text written to the error stream); `none` means the loop is still running
after the supplied event batches. -/
def mainResult (w h : Nat) (cells pixels : List Nat) (failAt : Option InitStep)
    (batches : List (List Event)) : Option (Nat × Option String) :=
  match failAt with
  | some step => some (1, some (what (catchByValue (throwRuntimeError (initMsg step)))))
  | none =>
      if (runLoop w h ⟨cells, pixels, [], true⟩ batches).run then none
      else some (0, none)

/-- C8: the exit codes are as specified — 0 when the loop is stopped by a
quit event or an escape key press, 1 on an initialization exception with a
message written to the error stream — but the message written is NOT the
raised exception's message: `catch (std::exception e)` slices the
`runtime_error`, so `e.what()` yields the generic `std::exception` text
instead of, e.g., "SDL initialize failed!". -/
theorem main_exit_codes_slice_bug :
    mainResult 5 5 block1 (List.replicate 25 0) none [[Event.quit]] = some (0, none) ∧
    mainResult 5 5 block1 (List.replicate 25 0) none [[Event.keyDown 27]] = some (0, none) ∧
    mainResult 5 5 block1 (List.replicate 25 0) (some .sdlInit) [] =
      some (1, some "std::exception") ∧
    what (throwRuntimeError (initMsg .sdlInit)) = "SDL initialize failed!" ∧
    ("std::exception" : String) ≠ "SDL initialize failed!" := by
  refine ⟨?_, ?_, rfl, rfl, by decide⟩ <;> rfl

/-- The full mutable state of the program: the global random stream owned
by `createCells` alongside the grid and the pixel buffer. -/
structure ProgState where
  rng : Nat → Nat
  cells : List Nat
  pixels : List Nat

/-- One tick of grid-and-pixel computation over the full program state
(src/main.cpp lines 62-63): the random stream is read only by `createCells`
at startup, never by the per-tick updates. -/
def tickPure (w h : Nat) (s : ProgState) : ProgState :=
  { rng := s.rng
    cells := updateCells s.cells w h
    pixels := updatePixelData s.pixels s.cells }

/-- C10: `updateCells` and `updatePixelData` are deterministic — on equal
input grids and pixel buffers (and equal dimensions) they produce equal
outputs, for any two program states regardless of their random streams:
all randomness is confined to the initial seeding in `createCells`. -/
theorem update_deterministic (w h : Nat) (s₁ s₂ : ProgState)
    (hc : s₁.cells = s₂.cells) (hp : s₁.pixels = s₂.pixels) :
    updateCells s₁.cells w h = updateCells s₂.cells w h ∧
    updatePixelData s₁.pixels s₁.cells = updatePixelData s₂.pixels s₂.cells ∧
    (tickPure w h s₁).cells = (tickPure w h s₂).cells ∧
    (tickPure w h s₁).pixels = (tickPure w h s₂).pixels := by
  rw [tickPure, tickPure, hc, hp]
  exact ⟨rfl, rfl, rfl, rfl⟩

/-- Witness for `update_deterministic`: two states sharing grid and pixel
buffer but carrying different random streams. -/
theorem update_deterministic_witness :
    updateCells (ProgState.mk (fun n => n) block1 (List.replicate 25 0)).cells 5 5 =
      updateCells (ProgState.mk (fun n => n + 1) block1 (List.replicate 25 0)).cells 5 5 ∧
    updatePixelData (ProgState.mk (fun n => n) block1 (List.replicate 25 0)).pixels
        (ProgState.mk (fun n => n) block1 (List.replicate 25 0)).cells =
      updatePixelData (ProgState.mk (fun n => n + 1) block1 (List.replicate 25 0)).pixels
        (ProgState.mk (fun n => n + 1) block1 (List.replicate 25 0)).cells ∧
    (tickPure 5 5 (ProgState.mk (fun n => n) block1 (List.replicate 25 0))).cells =
      (tickPure 5 5 (ProgState.mk (fun n => n + 1) block1 (List.replicate 25 0))).cells ∧
    (tickPure 5 5 (ProgState.mk (fun n => n) block1 (List.replicate 25 0))).pixels =
      (tickPure 5 5 (ProgState.mk (fun n => n + 1) block1 (List.replicate 25 0))).pixels :=
  update_deterministic 5 5 (ProgState.mk (fun n => n) block1 (List.replicate 25 0))
    (ProgState.mk (fun n => n + 1) block1 (List.replicate 25 0)) rfl rfl

end Life
